import Mathlib

/-!
Shallow embedding of `useCanvasImage` (src/index.js) — a React hook that
mirrors a canvas element's pixel content into a sibling img element.

The DOM heap is modelled as an association list from numeric element ids to
element records; the document order of attached elements is a list of ids.
The hook's runtime behaviour (mount effect, reselect timeout, interval timer,
returned trigger, requestAnimationFrame callbacks, unmount cleanup) is a
deterministic step function over a hook state, driven by a list of events.

Environment facilities called by the code are modelled as follows:
- `document.querySelector` returns the first attached element matching the
  selector (CSS matching itself is abstracted: each element carries the list
  of selector strings it matches);
- `canvas.toDataURL(fileType, quality)` is a computable stand-in that depends
  on the format, the quality and the canvas's pixel content;
- `classList.add` appends the given tokens without duplicates (DOM token
  validation is not modelled; class and attribute writes are total);
- assigning a string to `element.style`, and `setAttribute("style", v)`, both
  replace the whole inline style (the `style` field of the element record);
- `requestAnimationFrame` queues one callback; all queued callbacks are the
  identical `createImgSrc` closure, so the queue is modelled by a counter;
- the `interval` option is `number | null | false`; both disabled markers
  (`null` and `false`) are modelled by `none`, a number by `some n` — the
  source tests `interval === null || interval === false` and `usehooks-ts`'s
  `useInterval` arms no timer exactly for those two values.
-/

namespace UseCanvasImage

/-- Module-level img style constant (src/index.js line 6). -/
def IMG_STYLE : String := "position: absolute; top: 0; left: 0; z-index: 0;"

/-- Module-level canvas style constant (src/index.js line 7). -/
def CANVAS_STYLE : String := "position: absolute; top: 0; left: 0; z-index: 1;"

/-- The fixed reselect delay passed to `setTimeout(setCanvas, 100)` (line 93). -/
def RESELECT_DELAY : Nat := 100

/-- A DOM element: canvas flag (`instanceof HTMLCanvasElement`), the abstract
set of selectors it matches, class list, attribute map, inline style string,
img `src` (none for elements that never had one assigned), and the canvas's
current pixel content (meaningful only when `isCanvas`). -/
structure Elem where
  isCanvas : Bool
  selectors : List String
  classes : List String
  attrs : List (String × String)
  style : String
  src : Option String
  content : String
deriving DecidableEq

/-- The DOM: `store` is the heap of live elements keyed by id; `order` lists
the ids of attached elements in document order. -/
structure Doc where
  store : List (Nat × Elem)
  order : List Nat
deriving DecidableEq

/-- Heap lookup by element id (first entry with the given key). -/
def lookupElem : List (Nat × Elem) → Nat → Option Elem
  | [], _ => none
  | p :: ps, id => if p.1 = id then some p.2 else lookupElem ps id

/-- Update every heap entry with the given key in place. -/
def modStore (s : List (Nat × Elem)) (i : Nat) (f : Elem → Elem) :
    List (Nat × Elem) :=
  s.map (fun p => if p.1 = i then (p.1, f p.2) else p)

/-- Find an element in the document's heap. -/
def Doc.find (d : Doc) (id : Nat) : Option Elem :=
  lookupElem d.store id

/-- Mutate an element of the document's heap in place. -/
def Doc.modify (d : Doc) (id : Nat) (f : Elem → Elem) : Doc :=
  { d with store := modStore d.store id f }

/-- Whether the attached element with this id matches the selector. -/
def Doc.matchesAt (d : Doc) (s : String) (id : Nat) : Bool :=
  match d.find id with
  | some e => e.selectors.contains s
  | none => false

/-- `document.querySelector`: the first attached element matching `s`. -/
def querySelector (d : Doc) (s : String) : Option Nat :=
  d.order.find? (fun id => d.matchesAt s id)

/-- `x instanceof HTMLCanvasElement` for the element with this id. -/
def isCanvasElem (d : Doc) (id : Nat) : Bool :=
  match d.find id with
  | some e => e.isCanvas
  | none => false

/-- `anchor.after(newId)` on the document-order list: insert `newId` right
after the first occurrence of `anchor`; a detached anchor (absent from the
list) makes this a no-op, matching `ChildNode.after` on a parentless node. -/
def insertAfter : List Nat → Nat → Nat → List Nat
  | [], _, _ => []
  | x :: xs, anchor, newId =>
      if x = anchor then x :: newId :: xs
      else x :: insertAfter xs anchor newId

/-- `b` occurs immediately after `a` somewhere in the list. -/
def adjacentIn : List Nat → Nat → Nat → Bool
  | x :: y :: xs, a, b => (x == a && y == b) || adjacentIn (y :: xs) a b
  | _, _, _ => false

/-- The `canvas` option: a selector string, a React ref object (whose
`current` may name an element), or a direct element reference. -/
inductive CanvasRef where
  | selector (s : String)
  | ref (current : Option Nat)
  | elem (id : Nat)
deriving DecidableEq

/-- The hook's configuration object (destructured parameter, lines 23–31).
`interval = none` models both disabled markers `null` and `false`. -/
structure Config where
  canvas : CanvasRef
  imgClassname : String
  canvasClassname : String
  canvasAttributes : List (String × String)
  fileType : String
  quality : Rat
  interval : Option Nat
deriving DecidableEq

/-- The test `interval === null || interval === false` (line 114); with both
disabled markers modelled by `none` this is exactly `isNone`. `usehooks-ts`'s
`useInterval` arms its timer under the complementary condition. -/
def intervalDisabled (i : Option Nat) : Bool := i.isNone

/-- The value the hook returns to its caller: either the `createImgSrc`
trigger function, or the JavaScript value `null`. -/
inductive ReturnValue where
  | trigger
  | nullValue
deriving DecidableEq

/-- Whether the returned value is a function (invocable without throwing). -/
def ReturnValue.isFunction : ReturnValue → Bool
  | .trigger => true
  | .nullValue => false

/-- Line 114: `interval === null || interval === false ? createImgSrc : null`. -/
def hookReturn (cfg : Config) : ReturnValue :=
  if intervalDisabled cfg.interval then ReturnValue.trigger
  else ReturnValue.nullValue

/-- Computable stand-in for `canvas.toDataURL(fileType, quality)`: the encoded
image-data string, depending on the format, the quality and the pixel content. -/
def toDataURL (fileType : String) (quality : Rat) (content : String) : String :=
  "data:" ++ fileType ++ ";q=" ++ toString quality.num ++ "/" ++
    toString quality.den ++ ";base64," ++ content

/-- `classList.add(...tokens)`: append each token not already present. -/
def classListAdd (cs : List String) (tokens : List String) : List String :=
  tokens.foldl (fun acc t => if acc.contains t then acc else acc ++ [t]) cs

/-- Upsert one attribute in an attribute map. -/
def setAttr (l : List (String × String)) (k v : String) :
    List (String × String) :=
  if l.any (fun p => p.1 = k) then
    l.map (fun p => if p.1 = k then (k, v) else p)
  else l ++ [(k, v)]

/-- `element.setAttribute(k, v)`: the `style` attribute is the inline style,
so writing it replaces the element's style string wholesale. -/
def setAttribute (e : Elem) (k v : String) : Elem :=
  if k = "style" then { e with style := v }
  else { e with attrs := setAttr e.attrs k v }

/-- Lines 48–50: `Object.keys(canvasAttributes).forEach(attr => setAttribute …)`. -/
def applyAttributes (e : Elem) (attrs : List (String × String)) : Elem :=
  attrs.foldl (fun acc p => setAttribute acc p.1 p.2) e

/-- `createImg` (lines 35–44): build the mirror img element — `new Image()`,
add the configured classes when the classname string is truthy, then assign
the fixed `IMG_STYLE` wholesale. -/
def createImg (imgClassname : String) : Elem :=
  let base : Elem :=
    { isCanvas := false, selectors := [], classes := [], attrs := [],
      style := "", src := none, content := "" }
  let withClasses :=
    if imgClassname ≠ "" then
      { base with classes := classListAdd base.classes (imgClassname.splitOn " ") }
    else base
  { withClasses with style := IMG_STYLE }

/-- The canvas-side mutations of `updateCanvas` (lines 46–56): apply every
configured attribute, add the configured classes when truthy, then assign the
fixed `CANVAS_STYLE` wholesale. -/
def updateCanvasElem (cfg : Config) (e : Elem) : Elem :=
  let e1 := applyAttributes e cfg.canvasAttributes
  let e2 :=
    if cfg.canvasClassname ≠ "" then
      { e1 with classes := classListAdd e1.classes (cfg.canvasClassname.splitOn " ") }
    else e1
  { e2 with style := CANVAS_STYLE }

/-- One activation's runtime state: the two refs, the armed reselect timeout
(with its delay) and interval timer (with its delay), the queue of pending
`requestAnimationFrame` callbacks (a count — all callbacks are the same
closure), whether the mount effect has run, whether the activation was torn
down, a count of mirror images ever created, a fresh-id source for created
elements, and the errors thrown to the caller respectively thrown inside
asynchronous callbacks (never reaching the caller). -/
structure HookState where
  cfg : Config
  doc : Doc
  canvasRef : Option Nat
  imgRef : Option Nat
  retryPending : Option Nat
  rafQueue : Nat
  intervalArmed : Option Nat
  effectRan : Bool
  tornDown : Bool
  imgCreated : Nat
  nextId : Nat
  callerErrors : List String
  asyncErrors : List String
deriving DecidableEq

/-- The events that can occur during an activation. -/
inductive Event where
  | effectRun
  | retryFire
  | intervalTick
  | invoke
  | rafFire
  | deactivate
deriving DecidableEq

/-- The three reference-form branches of `setCanvas` (lines 79–88): a selector
string is resolved with `querySelector` (no canvas check on the result!); a
ref's `current`, and a direct reference, are accepted only when they are
`instanceof HTMLCanvasElement`. -/
def resolveRef (cfg : Config) (d : Doc) : Option Nat :=
  match cfg.canvas with
  | CanvasRef.selector s => querySelector d s
  | CanvasRef.ref current =>
      match current with
      | some id => if isCanvasElem d id then some id else none
      | none => none
  | CanvasRef.elem id => if isCanvasElem d id then some id else none

/-- `updateCanvas` (lines 46–61) applied once `cid` resolved: mutate the
canvas element, create the mirror img with a fresh id, and insert it into the
document immediately after the canvas (`canvasRef.current.after(img)`). -/
def runUpdateCanvas (st : HookState) (cid : Nat) : HookState :=
  let d1 := st.doc.modify cid (updateCanvasElem st.cfg)
  let iid := st.nextId
  let img := createImg st.cfg.imgClassname
  let d2 : Doc :=
    { store := d1.store ++ [(iid, img)], order := insertAfter d1.order cid iid }
  { st with doc := d2, imgRef := some iid, imgCreated := st.imgCreated + 1,
            nextId := st.nextId + 1 }

/-- `setCanvas` (lines 78–95): resolve the reference; on success run
`updateCanvas`, on failure arm the 100 ms reselect timeout. -/
def runSetCanvas (st : HookState) : HookState :=
  match resolveRef st.cfg st.doc with
  | some cid =>
      runUpdateCanvas { st with canvasRef := some cid, retryPending := none } cid
  | none =>
      { st with canvasRef := none, retryPending := some RESELECT_DELAY }

/-- Lines 67–71, after the guard: read `toDataURL` from the resolved element
and assign the result to the img's `src`. A resolved element that is not a
canvas has no `toDataURL` method: the resulting TypeError stays inside the
animation-frame callback. -/
def captureInto (st : HookState) (iid : Nat) : Option Elem → HookState
  | some ce =>
      if ce.isCanvas then
        let dataUrl := toDataURL st.cfg.fileType st.cfg.quality ce.content
        { st with doc := st.doc.modify iid (fun e => { e with src := some dataUrl }) }
      else
        { st with asyncErrors :=
            st.asyncErrors ++ ["TypeError: toDataURL is not a function"] }
  | none => st

/-- Line 65: `if (!canvasRef.current || !imgRef.current) return`. -/
def rafGuard (st : HookState) : Option Nat → Option Nat → HookState
  | some cid, some iid => captureInto st iid (st.doc.find cid)
  | _, _ => st

/-- The body of the `requestAnimationFrame` callback of `createImgSrc`
(lines 64–72): if either ref is unset, return silently; otherwise read the
canvas and assign the img's `src`. -/
def runRafCallback (st : HookState) : HookState :=
  rafGuard st st.canvasRef st.imgRef

/-- One scheduling step. `effectRun` is the React mount commit: it runs the
`useEffect` body (first `setCanvas`) and arms `useInterval`'s timer when the
interval is a number. `retryFire` is the reselect timeout firing, `intervalTick`
the interval timer firing (both impossible once cleared). `invoke` is the
caller invoking the activation's return value: the `createImgSrc` trigger in
manual mode, the value `null` — a TypeError at the call site — in periodic
mode. `rafFire` runs one queued animation-frame callback. `deactivate` is the
unmount cleanup: it clears the reselect timeout and the interval timer. -/
def step (st : HookState) : Event → HookState
  | Event.effectRun =>
      if st.effectRan || st.tornDown then st
      else
        let st1 := runSetCanvas { st with effectRan := true }
        match st1.cfg.interval with
        | some n => { st1 with intervalArmed := some n }
        | none => st1
  | Event.retryFire =>
      match st.retryPending with
      | some _ => runSetCanvas { st with retryPending := none }
      | none => st
  | Event.intervalTick =>
      match st.intervalArmed with
      | some _ => { st with rafQueue := st.rafQueue + 1 }
      | none => st
  | Event.invoke =>
      if intervalDisabled st.cfg.interval then
        { st with rafQueue := st.rafQueue + 1 }
      else
        { st with callerErrors :=
            st.callerErrors ++ ["TypeError: null is not a function"] }
  | Event.rafFire =>
      match st.rafQueue with
      | 0 => st
      | Nat.succ k => runRafCallback { st with rafQueue := k }
  | Event.deactivate =>
      if st.tornDown then st
      else { st with tornDown := true, retryPending := none, intervalArmed := none }

/-- Run a list of events from a state. -/
def run (st : HookState) (evs : List Event) : HookState :=
  evs.foldl step st

/-- An upper bound on the ids used by a document's heap. -/
def maxId (d : Doc) : Nat :=
  d.store.foldr (fun p m => max p.1 m) 0

/-- The activation's initial state: the hook body has run (both refs exist
and are unset, the return value is fixed by the configuration) but the mount
effect has not yet executed. -/
def activate (cfg : Config) (d : Doc) : HookState :=
  { cfg := cfg, doc := d, canvasRef := none, imgRef := none,
    retryPending := none, rafQueue := 0, intervalArmed := none,
    effectRan := false, tornDown := false, imgCreated := 0,
    nextId := maxId d + 1, callerErrors := [], asyncErrors := [] }

/-- A canvas element matching the selector string "#c". -/
def demoCanvas : Elem :=
  { isCanvas := true, selectors := ["#c"], classes := [], attrs := [],
    style := "width: 5px", src := none, content := "PIX" }

/-- A non-canvas element (a div) matching the selector string "#x". -/
def demoDiv : Elem :=
  { isCanvas := false, selectors := ["#x"], classes := [], attrs := [],
    style := "old", src := none, content := "" }

/-- A document holding just the demo canvas, attached. -/
def demoDoc : Doc := { store := [(1, demoCanvas)], order := [1] }

/-- A document holding just the demo div, attached. -/
def divDoc : Doc := { store := [(1, demoDiv)], order := [1] }

/-- A document with no elements at all. -/
def emptyDoc : Doc := { store := [], order := [] }

/-- A manual-mode configuration (interval left at its default `null`). -/
def cfgManual : Config :=
  { canvas := CanvasRef.selector "#c", imgClassname := "", canvasClassname := "",
    canvasAttributes := [], fileType := "image/jpeg", quality := 7/10,
    interval := none }

/-- A periodic-mode configuration (interval = 100 ms). -/
def cfgPeriodic : Config := { cfgManual with interval := some 100 }

/-- A manual-mode configuration whose selector resolves to the demo div. -/
def cfgDiv : Config := { cfgManual with canvas := CanvasRef.selector "#x" }

/-- A configuration carrying a caller-provided `style` attribute entry and
img classes, to exhibit the wholesale style overwrite. -/
def cfgStyled : Config :=
  { cfgManual with
      canvasAttributes := [("style", "color: red"), ("data-private", "x")],
      imgClassname := "fs-exclude extra" }

/-! ### Heap and list lemmas -/

theorem lookupElem_modStore_self (s : List (Nat × Elem)) (i : Nat)
    (f : Elem → Elem) :
    lookupElem (modStore s i f) i = (lookupElem s i).map f := by
  induction s with
  | nil => rfl
  | cons p ps ih =>
      by_cases h : p.1 = i
      · simp only [modStore, List.map_cons, if_pos h, lookupElem]
        rfl
      · simp only [modStore, List.map_cons, if_neg h, lookupElem]
        exact ih

theorem lookupElem_modStore_ne (s : List (Nat × Elem)) (i j : Nat)
    (f : Elem → Elem) (h : j ≠ i) :
    lookupElem (modStore s i f) j = lookupElem s j := by
  induction s with
  | nil => rfl
  | cons p ps ih =>
      by_cases hp : p.1 = i
      · have hpj : p.1 ≠ j := fun hj => h (hj ▸ hp)
        simp only [modStore, List.map_cons, if_pos hp, lookupElem, if_neg hpj]
        exact ih
      · by_cases hpj : p.1 = j
        · simp only [modStore, List.map_cons, if_neg hp, lookupElem, if_pos hpj]
        · simp only [modStore, List.map_cons, if_neg hp, lookupElem, if_neg hpj]
          exact ih

theorem lookupElem_append_some (s t : List (Nat × Elem)) (j : Nat) (x : Elem)
    (h : lookupElem s j = some x) :
    lookupElem (s ++ t) j = some x := by
  induction s with
  | nil => simp [lookupElem] at h
  | cons p ps ih =>
      by_cases hp : p.1 = j
      · simp [lookupElem, hp] at h ⊢; exact h
      · simp [lookupElem, hp] at h ⊢; exact ih h

theorem lookupElem_none_of_lt (s : List (Nat × Elem)) (n : Nat)
    (h : ∀ p ∈ s, p.1 < n) :
    lookupElem s n = none := by
  induction s with
  | nil => rfl
  | cons p ps ih =>
      have hp : p.1 ≠ n := Nat.ne_of_lt (h p (by simp))
      simp [lookupElem, hp]
      exact ih (fun q hq => h q (by simp [hq]))

theorem fresh_modStore (s : List (Nat × Elem)) (i : Nat) (f : Elem → Elem)
    (n : Nat) (h : ∀ p ∈ s, p.1 < n) :
    ∀ p ∈ modStore s i f, p.1 < n := by
  intro p hp
  rcases List.mem_map.mp hp with ⟨q, hq, hqp⟩
  have h1 : p.1 = q.1 := by
    rw [← hqp]
    by_cases hqi : q.1 = i <;> simp [hqi]
  rw [h1]; exact h q hq

theorem le_maxId (d : Doc) : ∀ p ∈ d.store, p.1 ≤ maxId d := by
  unfold maxId
  induction d.store with
  | nil => intro p hp; simp at hp
  | cons q s ih =>
      intro p hp
      rcases List.mem_cons.mp hp with h | h
      · rw [h]; exact Nat.le_max_left _ _
      · exact Nat.le_trans (ih p h) (Nat.le_max_right _ _)

theorem adjacentIn_cons (x : Nat) (l : List Nat) (a b : Nat)
    (h : adjacentIn l a b = true) :
    adjacentIn (x :: l) a b = true := by
  cases l with
  | nil => simp [adjacentIn] at h
  | cons y ys => simp [adjacentIn, h]

theorem adjacentIn_insertAfter (l : List Nat) (a b : Nat) (h : a ∈ l) :
    adjacentIn (insertAfter l a b) a b = true := by
  induction l with
  | nil => simp at h
  | cons x xs ih =>
      by_cases hx : x = a
      · subst hx; simp [insertAfter, adjacentIn]
      · have hmem : a ∈ xs := by
          rcases List.mem_cons.mp h with h1 | h1
          · exact absurd h1.symm hx
          · exact h1
        simp only [insertAfter, if_neg hx]
        exact adjacentIn_cons x _ a b (ih hmem)

/-! ### Field-preservation lemmas for the step function -/

theorem runUpdateCanvas_fields (st : HookState) (cid : Nat) :
    (runUpdateCanvas st cid).cfg = st.cfg ∧
    (runUpdateCanvas st cid).canvasRef = st.canvasRef ∧
    (runUpdateCanvas st cid).retryPending = st.retryPending ∧
    (runUpdateCanvas st cid).rafQueue = st.rafQueue ∧
    (runUpdateCanvas st cid).intervalArmed = st.intervalArmed ∧
    (runUpdateCanvas st cid).effectRan = st.effectRan ∧
    (runUpdateCanvas st cid).tornDown = st.tornDown ∧
    (runUpdateCanvas st cid).callerErrors = st.callerErrors ∧
    (runUpdateCanvas st cid).asyncErrors = st.asyncErrors := by
  simp [runUpdateCanvas]

theorem runSetCanvas_cfg (st : HookState) : (runSetCanvas st).cfg = st.cfg := by
  unfold runSetCanvas
  cases resolveRef st.cfg st.doc <;> simp [runUpdateCanvas]

theorem runSetCanvas_callerErrors (st : HookState) :
    (runSetCanvas st).callerErrors = st.callerErrors := by
  unfold runSetCanvas
  cases resolveRef st.cfg st.doc <;> simp [runUpdateCanvas]

theorem runSetCanvas_intervalArmed (st : HookState) :
    (runSetCanvas st).intervalArmed = st.intervalArmed := by
  unfold runSetCanvas
  cases resolveRef st.cfg st.doc <;> simp [runUpdateCanvas]

theorem runRafCallback_fields (st : HookState) :
    (runRafCallback st).cfg = st.cfg ∧
    (runRafCallback st).canvasRef = st.canvasRef ∧
    (runRafCallback st).imgRef = st.imgRef ∧
    (runRafCallback st).retryPending = st.retryPending ∧
    (runRafCallback st).rafQueue = st.rafQueue ∧
    (runRafCallback st).intervalArmed = st.intervalArmed ∧
    (runRafCallback st).effectRan = st.effectRan ∧
    (runRafCallback st).tornDown = st.tornDown ∧
    (runRafCallback st).imgCreated = st.imgCreated ∧
    (runRafCallback st).nextId = st.nextId ∧
    (runRafCallback st).callerErrors = st.callerErrors ∧
    (runRafCallback st).doc.order = st.doc.order := by
  unfold runRafCallback
  rcases hc : st.canvasRef with _ | cid <;> rcases hi : st.imgRef with _ | iid <;>
    simp only [rafGuard]
  · simp [hc, hi]
  · simp [hc, hi]
  · simp [hc, hi]
  · rcases hf : st.doc.find cid with _ | ce <;> simp only [hf, captureInto]
    · simp [hc, hi]
    · by_cases hcv : ce.isCanvas = true <;> simp [hc, hi, hcv, Doc.modify]

theorem step_cfg (st : HookState) (ev : Event) : (step st ev).cfg = st.cfg := by
  cases ev with
  | effectRun =>
      unfold step
      cases h : st.effectRan || st.tornDown
      · have h1 : (runSetCanvas { st with effectRan := true }).cfg = st.cfg :=
          runSetCanvas_cfg { st with effectRan := true }
        rcases hi : (runSetCanvas { st with effectRan := true }).cfg.interval with _ | n <;>
          rw [h1] at hi <;> simp [h, h1, hi]
      · simp [h]
  | retryFire =>
      unfold step
      cases st.retryPending with
      | none => rfl
      | some d => simpa using runSetCanvas_cfg { st with retryPending := none }
  | intervalTick =>
      unfold step
      cases st.intervalArmed <;> simp
  | invoke =>
      unfold step
      by_cases h : intervalDisabled st.cfg.interval <;> simp [h]
  | rafFire =>
      unfold step
      cases st.rafQueue with
      | zero => rfl
      | succ k => simpa using (runRafCallback_fields { st with rafQueue := k }).1
  | deactivate =>
      unfold step
      by_cases h : st.tornDown <;> simp [h]

theorem run_cfg (evs : List Event) : ∀ st : HookState, (run st evs).cfg = st.cfg := by
  induction evs with
  | nil => intro st; rfl
  | cons ev rest ih =>
      intro st
      show (run (step st ev) rest).cfg = st.cfg
      rw [ih (step st ev), step_cfg]

theorem runSetCanvas_tornDown (st : HookState) :
    (runSetCanvas st).tornDown = st.tornDown := by
  unfold runSetCanvas
  cases resolveRef st.cfg st.doc <;> simp [runUpdateCanvas]

/-! ### The reachability invariant of one activation -/

/-- Invariant of every state reachable from `activate cfg d0`: ids created for
mirror images are fresh; before resolution nothing has happened to the
document; resolution and mirror-image creation happen atomically in one step,
at most once, and the mirror is inserted immediately after the canvas when the
canvas is attached; a pending reselect timeout implies resolution has not
succeeded and always carries the fixed 100 ms delay; teardown clears both
timers; in manual mode the interval timer is never armed. -/
structure Inv (d0 : Doc) (st : HookState) : Prop where
  fresh_cur : ∀ p ∈ st.doc.store, p.1 < st.nextId
  fresh_init : ∀ p ∈ d0.store, p.1 < st.nextId
  unresolved : st.canvasRef = none →
    st.imgRef = none ∧ st.imgCreated = 0 ∧ st.doc = d0
  no_img_unresolved : st.imgRef = none → st.canvasRef = none
  img_resolved : ∀ iid, st.imgRef = some iid →
    st.imgCreated = 1 ∧ lookupElem d0.store iid = none ∧
    ∃ cid, st.canvasRef = some cid ∧
      (cid ∈ d0.order → adjacentIn st.doc.order cid iid = true)
  retry_unresolved : st.retryPending ≠ none →
    st.canvasRef = none ∧ st.effectRan = true
  pre_effect : st.effectRan = false → st.canvasRef = none ∧ st.retryPending = none
  torn_cleared : st.tornDown = true → st.retryPending = none ∧ st.intervalArmed = none
  manual_no_timer : intervalDisabled st.cfg.interval = true → st.intervalArmed = none
  retry_delay : ∀ n, st.retryPending = some n → n = RESELECT_DELAY
  timer_delay : ∀ n, st.intervalArmed = some n → st.cfg.interval = some n

theorem inv_activate (cfg : Config) (d0 : Doc) : Inv d0 (activate cfg d0) where
  fresh_cur := fun p hp => Nat.lt_succ_of_le (le_maxId d0 p hp)
  fresh_init := fun p hp => Nat.lt_succ_of_le (le_maxId d0 p hp)
  unresolved := fun _ => ⟨rfl, rfl, rfl⟩
  no_img_unresolved := fun _ => rfl
  img_resolved := fun iid h => Option.noConfusion h
  retry_unresolved := fun h0 => absurd rfl h0
  pre_effect := fun _ => ⟨rfl, rfl⟩
  torn_cleared := fun h0 => Bool.noConfusion h0
  manual_no_timer := fun _ => rfl
  retry_delay := fun n hn => Option.noConfusion hn
  timer_delay := fun n hn => Option.noConfusion hn

theorem inv_rafQueue (d0 : Doc) (st : HookState) (k : Nat) (h : Inv d0 st) :
    Inv d0 { st with rafQueue := k } where
  fresh_cur := h.fresh_cur
  fresh_init := h.fresh_init
  unresolved := h.unresolved
  no_img_unresolved := h.no_img_unresolved
  img_resolved := h.img_resolved
  retry_unresolved := h.retry_unresolved
  pre_effect := h.pre_effect
  torn_cleared := h.torn_cleared
  manual_no_timer := h.manual_no_timer
  retry_delay := h.retry_delay
  timer_delay := h.timer_delay

theorem inv_callerErrors (d0 : Doc) (st : HookState) (l : List String)
    (h : Inv d0 st) : Inv d0 { st with callerErrors := l } where
  fresh_cur := h.fresh_cur
  fresh_init := h.fresh_init
  unresolved := h.unresolved
  no_img_unresolved := h.no_img_unresolved
  img_resolved := h.img_resolved
  retry_unresolved := h.retry_unresolved
  pre_effect := h.pre_effect
  torn_cleared := h.torn_cleared
  manual_no_timer := h.manual_no_timer
  retry_delay := h.retry_delay
  timer_delay := h.timer_delay

theorem inv_asyncErrors (d0 : Doc) (st : HookState) (l : List String)
    (h : Inv d0 st) : Inv d0 { st with asyncErrors := l } where
  fresh_cur := h.fresh_cur
  fresh_init := h.fresh_init
  unresolved := h.unresolved
  no_img_unresolved := h.no_img_unresolved
  img_resolved := h.img_resolved
  retry_unresolved := h.retry_unresolved
  pre_effect := h.pre_effect
  torn_cleared := h.torn_cleared
  manual_no_timer := h.manual_no_timer
  retry_delay := h.retry_delay
  timer_delay := h.timer_delay

theorem inv_runSetCanvas (d0 : Doc) (st : HookState)
    (hfresh : ∀ p ∈ st.doc.store, p.1 < st.nextId)
    (hfresh0 : ∀ p ∈ d0.store, p.1 < st.nextId)
    (hdoc : st.doc = d0)
    (hcv : st.canvasRef = none) (himg : st.imgRef = none)
    (hcr : st.imgCreated = 0)
    (heff : st.effectRan = true) (htorn : st.tornDown = false)
    (hman : intervalDisabled st.cfg.interval = true → st.intervalArmed = none)
    (htd : ∀ n, st.intervalArmed = some n → st.cfg.interval = some n) :
    Inv d0 (runSetCanvas st) := by
  unfold runSetCanvas
  rcases hres : resolveRef st.cfg st.doc with _ | cid
  · refine ⟨?_, ?_, ?_, ?_, ?_, ?_, ?_, ?_, ?_, ?_, ?_⟩
    · exact hfresh
    · exact hfresh0
    · intro h2
      exact ⟨himg, hcr, hdoc⟩
    · intro h2
      rfl
    · intro iid h2
      have h3 : st.imgRef = some iid := h2
      rw [himg] at h3; cases h3
    · intro h2
      exact ⟨rfl, heff⟩
    · intro h2
      have h3 : st.effectRan = false := h2
      rw [heff] at h3; cases h3
    · intro h2
      have h3 : st.tornDown = true := h2
      rw [htorn] at h3; cases h3
    · intro h2
      exact hman h2
    · intro n hn
      have h3 : some RESELECT_DELAY = some n := hn
      exact (Option.some.inj h3).symm
    · intro n hn
      exact htd n hn
  · refine ⟨?_, ?_, ?_, ?_, ?_, ?_, ?_, ?_, ?_, ?_, ?_⟩
    · intro p hp
      have hp2 : p ∈ modStore st.doc.store cid (updateCanvasElem st.cfg)
          ++ [(st.nextId, createImg st.cfg.imgClassname)] := hp
      show p.1 < st.nextId + 1
      rcases List.mem_append.mp hp2 with hp1 | hp1
      · exact Nat.lt_succ_of_lt (fresh_modStore _ _ _ _ hfresh p hp1)
      · rcases List.mem_singleton.mp hp1 with rfl
        exact Nat.lt_succ_self _
    · intro p hp
      show p.1 < st.nextId + 1
      exact Nat.lt_succ_of_lt (hfresh0 p hp)
    · intro h2
      have h3 : (some cid : Option Nat) = none := h2
      cases h3
    · intro h2
      have h3 : (some st.nextId : Option Nat) = none := h2
      cases h3
    · intro iid h2
      have h3 : (some st.nextId : Option Nat) = some iid := h2
      have hiid : iid = st.nextId := (Option.some.inj h3).symm
      subst hiid
      refine ⟨?_, ?_, cid, rfl, ?_⟩
      · show st.imgCreated + 1 = 1
        rw [hcr]
      · exact lookupElem_none_of_lt _ _ hfresh0
      · intro hmem
        show adjacentIn (insertAfter st.doc.order cid st.nextId) cid st.nextId = true
        rw [show st.doc = d0 from hdoc]
        exact adjacentIn_insertAfter d0.order cid st.nextId hmem
    · intro h2
      exact absurd rfl h2
    · intro h2
      have h3 : st.effectRan = false := h2
      rw [heff] at h3; cases h3
    · intro h2
      have h3 : st.tornDown = true := h2
      rw [htorn] at h3; cases h3
    · intro h2
      exact hman h2
    · intro n hn
      have h3 : (none : Option Nat) = some n := hn
      cases h3
    · intro n hn
      exact htd n hn

theorem inv_runRafCallback (d0 : Doc) (st : HookState) (h : Inv d0 st) :
    Inv d0 (runRafCallback st) := by
  unfold runRafCallback
  rcases hc : st.canvasRef with _ | cid <;> rcases hi : st.imgRef with _ | iid <;>
    simp only [rafGuard]
  · exact h
  · exact h
  · exact h
  · rcases hf : st.doc.find cid with _ | ce <;> simp only [captureInto]
    · exact h
    · by_cases hcv : ce.isCanvas = true
      · simp only [hcv, if_true]
        refine ⟨?_, h.fresh_init, ?_, ?_, ?_, h.retry_unresolved, h.pre_effect,
          h.torn_cleared, h.manual_no_timer, h.retry_delay, h.timer_delay⟩
        · intro p hp
          have hp2 : p ∈ modStore st.doc.store iid
              (fun e => { e with src := some (toDataURL st.cfg.fileType
                st.cfg.quality ce.content) }) := hp
          exact fresh_modStore _ _ _ _ h.fresh_cur p hp2
        · intro h2
          have h3 : st.canvasRef = none := h2
          rw [hc] at h3; cases h3
        · intro h2
          have h3 : st.imgRef = none := h2
          rw [hi] at h3; cases h3
        · intro iid2 h2
          have h3 : st.imgRef = some iid2 := h2
          exact h.img_resolved iid2 h3
      · simp only [hcv, if_false]
        exact inv_asyncErrors _ _ _ h

theorem inv_setTimer (d0 : Doc) (st : HookState) (n : Nat) (h : Inv d0 st)
    (hn : st.cfg.interval = some n) (htorn : st.tornDown = false) :
    Inv d0 { st with intervalArmed := some n } where
  fresh_cur := h.fresh_cur
  fresh_init := h.fresh_init
  unresolved := h.unresolved
  no_img_unresolved := h.no_img_unresolved
  img_resolved := h.img_resolved
  retry_unresolved := h.retry_unresolved
  pre_effect := h.pre_effect
  torn_cleared := fun h2 => by
    rw [show st.tornDown = false from htorn] at h2; cases h2
  manual_no_timer := fun h2 => by
    rw [show intervalDisabled st.cfg.interval
          = intervalDisabled st.cfg.interval from rfl] at h2
    rw [hn] at h2
    cases h2
  retry_delay := h.retry_delay
  timer_delay := fun m hm => by
    have hm2 : some n = some m := hm
    rw [hn, Option.some.inj hm2]

theorem inv_deactivate (d0 : Doc) (st : HookState) (h : Inv d0 st) :
    Inv d0 { st with tornDown := true, retryPending := none, intervalArmed := none } where
  fresh_cur := h.fresh_cur
  fresh_init := h.fresh_init
  unresolved := h.unresolved
  no_img_unresolved := h.no_img_unresolved
  img_resolved := h.img_resolved
  retry_unresolved := fun h2 => absurd rfl h2
  pre_effect := fun h2 => ⟨(h.pre_effect h2).1, rfl⟩
  torn_cleared := fun _ => ⟨rfl, rfl⟩
  manual_no_timer := fun _ => rfl
  retry_delay := fun n hn => Option.noConfusion hn
  timer_delay := fun n hn => Option.noConfusion hn

theorem inv_step (d0 : Doc) (st : HookState) (ev : Event) (h : Inv d0 st) :
    Inv d0 (step st ev) := by
  cases ev with
  | effectRun =>
      unfold step
      cases hg : st.effectRan || st.tornDown
      · simp only [hg, Bool.false_eq_true, if_false]
        have heff : st.effectRan = false := by
          cases he : st.effectRan
          · rfl
          · rw [he] at hg; simp at hg
        have htorn : st.tornDown = false := by
          cases ht : st.tornDown
          · rfl
          · rw [ht] at hg; simp at hg
        obtain ⟨hcv, hret⟩ := h.pre_effect heff
        obtain ⟨himg, hcr, hdoc⟩ := h.unresolved hcv
        have h2 : Inv d0 (runSetCanvas { st with effectRan := true }) :=
          inv_runSetCanvas d0 { st with effectRan := true }
            h.fresh_cur h.fresh_init hdoc hcv himg hcr rfl htorn
            h.manual_no_timer h.timer_delay
        rcases hi : (runSetCanvas { st with effectRan := true }).cfg.interval with _ | n
        · exact h2
        · exact inv_setTimer d0 _ n h2 hi
            (by rw [runSetCanvas_tornDown]; exact htorn)
      · simp only [hg, if_true]
        exact h
  | retryFire =>
      unfold step
      rcases hr : st.retryPending with _ | m
      · exact h
      · obtain ⟨hcv, heff⟩ := h.retry_unresolved (by rw [hr]; exact Option.noConfusion)
        obtain ⟨himg, hcr, hdoc⟩ := h.unresolved hcv
        have htorn : st.tornDown = false := by
          cases ht : st.tornDown
          · rfl
          · have := (h.torn_cleared ht).1
            rw [hr] at this; cases this
        exact inv_runSetCanvas d0 { st with retryPending := none }
          h.fresh_cur h.fresh_init hdoc hcv himg hcr heff htorn
          h.manual_no_timer h.timer_delay
  | intervalTick =>
      unfold step
      rcases hi : st.intervalArmed with _ | n
      · exact h
      · have h2 := inv_rafQueue d0 st (st.rafQueue + 1) h
        rw [hi] at h2
        exact h2
  | invoke =>
      unfold step
      by_cases hd : intervalDisabled st.cfg.interval = true
      · simp only [hd, if_true]
        exact inv_rafQueue d0 st _ h
      · simp only [hd, if_false]
        exact inv_callerErrors d0 st _ h
  | rafFire =>
      unfold step
      rcases hq : st.rafQueue with _ | k
      · exact h
      · exact inv_runRafCallback d0 _ (inv_rafQueue d0 st k h)
  | deactivate =>
      unfold step
      cases ht : st.tornDown
      · simp only [ht, Bool.false_eq_true, if_false]
        exact inv_deactivate d0 st h
      · simp only [ht, if_true]
        exact h

theorem inv_run (d0 : Doc) (evs : List Event) :
    ∀ st : HookState, Inv d0 st → Inv d0 (run st evs) := by
  induction evs with
  | nil => intro st h; exact h
  | cons ev rest ih =>
      intro st h
      show Inv d0 (run (step st ev) rest)
      exact ih (step st ev) (inv_step d0 st ev h)

/-- Every reachable state has created at most one mirror image. -/
theorem inv_created_le (d0 : Doc) (st : HookState) (h : Inv d0 st) :
    st.imgCreated ≤ 1 := by
  rcases hi : st.imgRef with _ | iid
  · rw [(h.unresolved (h.no_img_unresolved hi)).2.1]
    exact Nat.zero_le 1
  · rw [(h.img_resolved iid hi).1]

/-! ### Characterization of the individual steps -/

theorem step_effectRun_noop (st : HookState)
    (hg : (st.effectRan || st.tornDown) = true) :
    step st Event.effectRun = st := by
  show (if st.effectRan || st.tornDown then st
        else match (runSetCanvas { st with effectRan := true }).cfg.interval with
          | some n =>
              { runSetCanvas { st with effectRan := true } with intervalArmed := some n }
          | none => runSetCanvas { st with effectRan := true }) = st
  rw [hg]
  rfl

theorem step_effectRun_manual (st : HookState) (he : st.effectRan = false)
    (ht : st.tornDown = false) (hd : st.cfg.interval = none) :
    step st Event.effectRun = runSetCanvas { st with effectRan := true } := by
  have h2 : (runSetCanvas { st with effectRan := true }).cfg.interval = none := by
    rw [runSetCanvas_cfg]; exact hd
  show (if st.effectRan || st.tornDown then st
        else match (runSetCanvas { st with effectRan := true }).cfg.interval with
          | some n =>
              { runSetCanvas { st with effectRan := true } with intervalArmed := some n }
          | none => runSetCanvas { st with effectRan := true }) = _
  rw [h2, he, ht]
  rfl

theorem step_effectRun_periodic (st : HookState) (n : Nat)
    (he : st.effectRan = false) (ht : st.tornDown = false)
    (hd : st.cfg.interval = some n) :
    step st Event.effectRun
      = { runSetCanvas { st with effectRan := true } with intervalArmed := some n } := by
  have h2 : (runSetCanvas { st with effectRan := true }).cfg.interval = some n := by
    rw [runSetCanvas_cfg]; exact hd
  show (if st.effectRan || st.tornDown then st
        else match (runSetCanvas { st with effectRan := true }).cfg.interval with
          | some m =>
              { runSetCanvas { st with effectRan := true } with intervalArmed := some m }
          | none => runSetCanvas { st with effectRan := true }) = _
  rw [h2, he, ht]
  rfl

theorem step_retryFire_none (st : HookState) (h : st.retryPending = none) :
    step st Event.retryFire = st := by
  show (match st.retryPending with
        | some _ => runSetCanvas { st with retryPending := none }
        | none => st) = st
  rw [h]

theorem step_retryFire_some (st : HookState) (n : Nat)
    (h : st.retryPending = some n) :
    step st Event.retryFire = runSetCanvas { st with retryPending := none } := by
  show (match st.retryPending with
        | some _ => runSetCanvas { st with retryPending := none }
        | none => st) = _
  rw [h]

theorem step_intervalTick_none (st : HookState) (h : st.intervalArmed = none) :
    step st Event.intervalTick = st := by
  show (match st.intervalArmed with
        | some _ => { st with rafQueue := st.rafQueue + 1 }
        | none => st) = st
  rw [h]

theorem step_intervalTick_some (st : HookState) (n : Nat)
    (h : st.intervalArmed = some n) :
    step st Event.intervalTick = { st with rafQueue := st.rafQueue + 1 } := by
  show (match st.intervalArmed with
        | some _ => { st with rafQueue := st.rafQueue + 1 }
        | none => st) = _
  rw [h]

theorem step_invoke_manual (st : HookState)
    (h : intervalDisabled st.cfg.interval = true) :
    step st Event.invoke = { st with rafQueue := st.rafQueue + 1 } := by
  have heq : step st Event.invoke
      = (if intervalDisabled st.cfg.interval then
          ({ st with rafQueue := st.rafQueue + 1 } : HookState)
        else { st with callerErrors :=
            st.callerErrors ++ ["TypeError: null is not a function"] }) := rfl
  rw [heq, h]
  rfl

theorem step_invoke_periodic (st : HookState)
    (h : intervalDisabled st.cfg.interval = false) :
    step st Event.invoke
      = { st with callerErrors :=
            st.callerErrors ++ ["TypeError: null is not a function"] } := by
  have heq : step st Event.invoke
      = (if intervalDisabled st.cfg.interval then
          ({ st with rafQueue := st.rafQueue + 1 } : HookState)
        else { st with callerErrors :=
            st.callerErrors ++ ["TypeError: null is not a function"] }) := rfl
  rw [heq, h]
  rfl

theorem step_rafFire_zero (st : HookState) (h : st.rafQueue = 0) :
    step st Event.rafFire = st := by
  show (match st.rafQueue with
        | 0 => st
        | Nat.succ k => runRafCallback { st with rafQueue := k }) = st
  rw [h]

theorem step_rafFire_succ (st : HookState) (k : Nat) (h : st.rafQueue = k + 1) :
    step st Event.rafFire = runRafCallback { st with rafQueue := k } := by
  show (match st.rafQueue with
        | 0 => st
        | Nat.succ m => runRafCallback { st with rafQueue := m }) = _
  rw [h]

theorem step_deactivate_live (st : HookState) (h : st.tornDown = false) :
    step st Event.deactivate
      = { st with tornDown := true, retryPending := none, intervalArmed := none } := by
  have heq : step st Event.deactivate
      = (if st.tornDown then st
        else { st with tornDown := true, retryPending := none, intervalArmed := none }) :=
    rfl
  rw [heq, h]
  rfl

theorem step_deactivate_torn (st : HookState) (h : st.tornDown = true) :
    step st Event.deactivate = st := by
  have heq : step st Event.deactivate
      = (if st.tornDown then st
        else { st with tornDown := true, retryPending := none, intervalArmed := none }) :=
    rfl
  rw [heq, h]
  rfl

theorem runRafCallback_unset (st : HookState)
    (h : st.canvasRef = none ∨ st.imgRef = none) :
    runRafCallback st = st := by
  unfold runRafCallback
  rcases h with h | h
  · rw [h]
    rcases hi : st.imgRef with _ | iid <;> rfl
  · rcases hc : st.canvasRef with _ | cid
    · rfl
    · rw [h]
      rfl

theorem runRafCallback_capture (st : HookState) (cid iid : Nat) (ce : Elem)
    (hc : st.canvasRef = some cid) (hi : st.imgRef = some iid)
    (hf : st.doc.find cid = some ce) (hcv : ce.isCanvas = true) :
    runRafCallback st
      = { st with doc := st.doc.modify iid (fun e =>
            { e with src := some (toDataURL st.cfg.fileType st.cfg.quality ce.content) }) } := by
  have hu : runRafCallback st = captureInto st iid (st.doc.find cid) := by
    unfold runRafCallback
    rw [hc, hi]
    rfl
  rw [hu, hf]
  simp only [captureInto, hcv, if_true]

/-! ### After teardown with resolution never completed, nothing happens -/

/-- A deactivated activation whose resolution never completed. -/
def Dead (st : HookState) : Prop :=
  st.tornDown = true ∧ st.canvasRef = none ∧ st.imgRef = none ∧
  st.retryPending = none ∧ st.intervalArmed = none ∧ st.imgCreated = 0

theorem dead_step (st : HookState) (ev : Event) (h : Dead st) :
    Dead (step st ev) ∧ (step st ev).doc = st.doc := by
  obtain ⟨ht, hc, hi, hr, ha, hcr⟩ := h
  cases ev with
  | effectRun =>
      rw [step_effectRun_noop st (by rw [ht, Bool.or_true])]
      exact ⟨⟨ht, hc, hi, hr, ha, hcr⟩, rfl⟩
  | retryFire =>
      rw [step_retryFire_none st hr]
      exact ⟨⟨ht, hc, hi, hr, ha, hcr⟩, rfl⟩
  | intervalTick =>
      rw [step_intervalTick_none st ha]
      exact ⟨⟨ht, hc, hi, hr, ha, hcr⟩, rfl⟩
  | invoke =>
      cases hd : intervalDisabled st.cfg.interval
      · rw [step_invoke_periodic st hd]
        exact ⟨⟨ht, hc, hi, hr, ha, hcr⟩, rfl⟩
      · rw [step_invoke_manual st hd]
        exact ⟨⟨ht, hc, hi, hr, ha, hcr⟩, rfl⟩
  | rafFire =>
      rcases hq : st.rafQueue with _ | k
      · rw [step_rafFire_zero st hq]
        exact ⟨⟨ht, hc, hi, hr, ha, hcr⟩, rfl⟩
      · rw [step_rafFire_succ st k hq,
          runRafCallback_unset { st with rafQueue := k } (Or.inl hc)]
        exact ⟨⟨ht, hc, hi, hr, ha, hcr⟩, rfl⟩
  | deactivate =>
      rw [step_deactivate_torn st ht]
      exact ⟨⟨ht, hc, hi, hr, ha, hcr⟩, rfl⟩

theorem dead_run (evs : List Event) :
    ∀ st : HookState, Dead st →
    Dead (run st evs) ∧ (run st evs).doc = st.doc := by
  induction evs with
  | nil => intro st h; exact ⟨h, rfl⟩
  | cons ev rest ih =>
      intro st h
      obtain ⟨h2, hdoc2⟩ := dead_step st ev h
      obtain ⟨h3, hdoc3⟩ := ih (step st ev) h2
      refine ⟨h3, ?_⟩
      show (run (step st ev) rest).doc = st.doc
      rw [hdoc3, hdoc2]

/-! ### Caller-visible errors and invocation bookkeeping -/

theorem step_callerErrors_of_ne (st : HookState) (ev : Event)
    (h : ev ≠ Event.invoke) :
    (step st ev).callerErrors = st.callerErrors := by
  cases ev with
  | effectRun =>
      cases hg : st.effectRan || st.tornDown
      · obtain ⟨he, ht⟩ := Bool.or_eq_false_iff.mp hg
        rcases hd : st.cfg.interval with _ | n
        · rw [step_effectRun_manual st he ht hd, runSetCanvas_callerErrors]
        · rw [step_effectRun_periodic st n he ht hd]
          show (runSetCanvas { st with effectRan := true }).callerErrors
              = st.callerErrors
          rw [runSetCanvas_callerErrors]
      · rw [step_effectRun_noop st hg]
  | retryFire =>
      rcases hr : st.retryPending with _ | n
      · rw [step_retryFire_none st hr]
      · rw [step_retryFire_some st n hr, runSetCanvas_callerErrors]
  | intervalTick =>
      rcases ha : st.intervalArmed with _ | n
      · rw [step_intervalTick_none st ha]
      · rw [step_intervalTick_some st n ha]
  | invoke => exact absurd rfl h
  | rafFire =>
      rcases hq : st.rafQueue with _ | k
      · rw [step_rafFire_zero st hq]
      · rw [step_rafFire_succ st k hq]
        exact (runRafCallback_fields { st with rafQueue := k }).2.2.2.2.2.2.2.2.2.2.1
  | deactivate =>
      cases ht : st.tornDown
      · rw [step_deactivate_live st ht]
      · rw [step_deactivate_torn st ht]

theorem run_callerErrors_empty (evs : List Event) :
    ∀ st : HookState, st.callerErrors = [] →
    (intervalDisabled st.cfg.interval = true ∨ Event.invoke ∉ evs) →
    (run st evs).callerErrors = [] := by
  induction evs with
  | nil => intro st h _; exact h
  | cons ev rest ih =>
      intro st h hok
      show (run (step st ev) rest).callerErrors = []
      have hcfg : (step st ev).cfg = st.cfg := step_cfg st ev
      have hstep : (step st ev).callerErrors = [] := by
        by_cases hev : ev = Event.invoke
        · subst hev
          rcases hok with hok | hok
          · rw [step_invoke_manual st hok]
            exact h
          · exact absurd (List.mem_cons_self _ _) hok
        · rw [step_callerErrors_of_ne st ev hev]
          exact h
      have hok2 : intervalDisabled (step st ev).cfg.interval = true
          ∨ Event.invoke ∉ rest := by
        rcases hok with hok | hok
        · exact Or.inl (by rw [hcfg]; exact hok)
        · exact Or.inr (fun hmem => hok (List.mem_cons_of_mem _ hmem))
      exact ih (step st ev) hstep hok2

theorem run_invoke_replicate (n : Nat) :
    ∀ st : HookState, intervalDisabled st.cfg.interval = true →
    (run st (List.replicate n Event.invoke)).doc = st.doc ∧
    (run st (List.replicate n Event.invoke)).rafQueue = st.rafQueue + n ∧
    (run st (List.replicate n Event.invoke)).cfg = st.cfg := by
  induction n with
  | zero => intro st _; exact ⟨rfl, rfl, rfl⟩
  | succ m ih =>
      intro st h
      rw [List.replicate_succ]
      show (run (step st Event.invoke) (List.replicate m Event.invoke)).doc = st.doc ∧
        (run (step st Event.invoke) (List.replicate m Event.invoke)).rafQueue
          = st.rafQueue + (m + 1) ∧
        (run (step st Event.invoke) (List.replicate m Event.invoke)).cfg = st.cfg
      rw [step_invoke_manual st h]
      obtain ⟨h1, h2, h3⟩ := ih { st with rafQueue := st.rafQueue + 1 } h
      refine ⟨h1, ?_, h3⟩
      rw [h2]
      show st.rafQueue + 1 + m = st.rafQueue + (m + 1)
      omega

theorem rafFire_doc_of_unresolved (st : HookState) (h : st.canvasRef = none) :
    (step st Event.rafFire).doc = st.doc := by
  rcases hq : st.rafQueue with _ | k
  · rw [step_rafFire_zero st hq]
  · rw [step_rafFire_succ st k hq,
      runRafCallback_unset { st with rafQueue := k } (Or.inl h)]

theorem invoke_doc_canvasRef (st : HookState) :
    (step st Event.invoke).doc = st.doc ∧
    (step st Event.invoke).canvasRef = st.canvasRef := by
  cases hd : intervalDisabled st.cfg.interval
  · rw [step_invoke_periodic st hd]
    exact ⟨rfl, rfl⟩
  · rw [step_invoke_manual st hd]
    exact ⟨rfl, rfl⟩

theorem retry_step (st : HookState) (hr : st.retryPending = some RESELECT_DELAY)
    (hres : resolveRef st.cfg st.doc = none) :
    (step st Event.retryFire).retryPending = some RESELECT_DELAY ∧
    (step st Event.retryFire).doc = st.doc ∧
    (step st Event.retryFire).cfg = st.cfg := by
  rw [step_retryFire_some st RESELECT_DELAY hr]
  have h2 : resolveRef ({ st with retryPending := none } : HookState).cfg
      ({ st with retryPending := none } : HookState).doc = none := hres
  unfold runSetCanvas
  rw [h2]
  exact ⟨rfl, rfl, rfl⟩

theorem retry_replicate (n : Nat) : ∀ st : HookState,
    st.retryPending = some RESELECT_DELAY →
    resolveRef st.cfg st.doc = none →
    (run st (List.replicate n Event.retryFire)).retryPending
      = some RESELECT_DELAY := by
  induction n with
  | zero => intro st h _; exact h
  | succ m ih =>
      intro st h hres
      rw [List.replicate_succ]
      show (run (step st Event.retryFire)
        (List.replicate m Event.retryFire)).retryPending = some RESELECT_DELAY
      obtain ⟨h1, h2, h3⟩ := retry_step st h hres
      exact ih _ h1 (by rw [h3, h2]; exact hres)

/-! ### Claim theorems -/

/-- C1 counterexample: with a periodic configuration (interval = 100 ms), the
activation's return value is the JavaScript value null, not a no-op function
as the claim states — `return interval === null || interval === false ?
createImgSrc : null` yields null for any numeric interval. -/
theorem C1_counterexample :
    hookReturn cfgPeriodic = ReturnValue.nullValue ∧
    ReturnValue.isFunction (hookReturn cfgPeriodic) = false := by
  exact ⟨rfl, rfl⟩

/-- C1 (amended): the value returned to the caller is the zero-argument
trigger function exactly when the update interval is a disabled marker
(null or false); when the interval is a duration the return value is null —
not a function — and an attempted invocation of it has no observable effect
on the document (in particular on the mirror image) and schedules no
capture. -/
theorem C1_return_value (cfg : Config) :
    (intervalDisabled cfg.interval = true →
      hookReturn cfg = ReturnValue.trigger) ∧
    (intervalDisabled cfg.interval = false →
      hookReturn cfg = ReturnValue.nullValue ∧
      ReturnValue.isFunction (hookReturn cfg) = false ∧
      ∀ st : HookState, st.cfg = cfg →
        (step st Event.invoke).doc = st.doc ∧
        (step st Event.invoke).rafQueue = st.rafQueue) := by
  constructor
  · intro h
    simp [hookReturn, h]
  · intro h
    refine ⟨by simp [hookReturn, h], by simp [hookReturn, h, ReturnValue.isFunction], ?_⟩
    intro st hst
    have hd : intervalDisabled st.cfg.interval = false := by rw [hst]; exact h
    rw [step_invoke_periodic st hd]
    exact ⟨rfl, rfl⟩

/-- C1 witness: the concrete manual configuration returns the trigger, the
concrete periodic configuration returns null. -/
theorem C1_return_value_witness :
    hookReturn cfgManual = ReturnValue.trigger ∧
    hookReturn cfgPeriodic = ReturnValue.nullValue :=
  ⟨(C1_return_value cfgManual).1 rfl, ((C1_return_value cfgPeriodic).2 rfl).1⟩

/-- C2: exactly one capture-triggering mode is active per activation, chosen
once from the configured interval: with the disabled marker the trigger
function is returned and the interval timer is never armed in any reachable
state; with a duration no trigger function is returned (the return value is
null) and invoking the returned value schedules no capture and changes no
document state; it is never the case that both the returned trigger function
exists and the interval timer is armed. -/
theorem C2_mode_exclusive (cfg : Config) (d0 : Doc) (evs : List Event) :
    (run (activate cfg d0) evs).cfg = cfg ∧
    (intervalDisabled cfg.interval = true →
      hookReturn cfg = ReturnValue.trigger ∧
      (run (activate cfg d0) evs).intervalArmed = none) ∧
    (intervalDisabled cfg.interval = false →
      hookReturn cfg = ReturnValue.nullValue ∧
      (step (run (activate cfg d0) evs) Event.invoke).rafQueue
        = (run (activate cfg d0) evs).rafQueue ∧
      (step (run (activate cfg d0) evs) Event.invoke).doc
        = (run (activate cfg d0) evs).doc) ∧
    ¬(hookReturn cfg = ReturnValue.trigger ∧
      (run (activate cfg d0) evs).intervalArmed ≠ none) := by
  have hinv : Inv d0 (run (activate cfg d0) evs) :=
    inv_run d0 evs (activate cfg d0) (inv_activate cfg d0)
  have hcfg : (run (activate cfg d0) evs).cfg = cfg := run_cfg evs (activate cfg d0)
  refine ⟨hcfg, ?_, ?_, ?_⟩
  · intro h
    refine ⟨by simp [hookReturn, h], ?_⟩
    exact hinv.manual_no_timer (by rw [hcfg]; exact h)
  · intro h
    have hd : intervalDisabled (run (activate cfg d0) evs).cfg.interval = false := by
      rw [hcfg]; exact h
    rw [step_invoke_periodic _ hd]
    exact ⟨by simp [hookReturn, h], rfl, rfl⟩
  · rintro ⟨hret, harm⟩
    cases hx : intervalDisabled cfg.interval
    · have hnull : hookReturn cfg = ReturnValue.nullValue := by
        simp [hookReturn, hx]
      rw [hnull] at hret
      exact ReturnValue.noConfusion hret
    · exact harm (hinv.manual_no_timer (by rw [hcfg]; exact hx))

/-- C2 witness: with the periodic demo configuration, after the mount effect
the return value is null and invoking it schedules no capture. -/
theorem C2_mode_exclusive_witness :
    hookReturn cfgPeriodic = ReturnValue.nullValue ∧
    (step (run (activate cfgPeriodic demoDoc) [Event.effectRun]) Event.invoke).rafQueue
      = (run (activate cfgPeriodic demoDoc) [Event.effectRun]).rafQueue := by
  have h := C2_mode_exclusive cfgPeriodic demoDoc [Event.effectRun]
  exact ⟨(h.2.2.1 rfl).1, (h.2.2.1 rfl).2.1⟩

/-- C3 counterexample: the trigger function is available to the caller from
activation, before the mount effect performs setup: at the initial state of
the manual demo activation no mirror image exists, yet the return value is
already the trigger function and invoking it does schedule a deferred
capture (one queued animation-frame callback). This falsifies the claim
that a capture triggered before setup completes is impossible because the
trigger is only wired up after setup. -/
theorem C3_counterexample :
    hookReturn cfgManual = ReturnValue.trigger ∧
    (activate cfgManual demoDoc).imgRef = none ∧
    (step (activate cfgManual demoDoc) Event.invoke).rafQueue = 1 := by
  refine ⟨rfl, rfl, ?_⟩
  rw [step_invoke_manual (activate cfgManual demoDoc) rfl]
  rfl

/-- C3 (amended): setup (resolution followed by mirror creation) strictly
precedes the first capture — in any reachable state in which the mirror
image has not been created, the document is untouched, and a trigger
invocation followed by its deferred animation-frame callback still leaves
the document untouched. The precedence is enforced by the callback's
re-validation guard, not by the trigger being unavailable: the trigger is
returned before setup runs. -/
theorem C3_setup_precedes_capture (cfg : Config) (d0 : Doc) (evs : List Event)
    (h : (run (activate cfg d0) evs).imgRef = none) :
    (run (activate cfg d0) evs).doc = d0 ∧
    (run (run (activate cfg d0) evs) [Event.invoke, Event.rafFire]).doc = d0 := by
  have hinv := inv_run d0 evs (activate cfg d0) (inv_activate cfg d0)
  have hcv := hinv.no_img_unresolved h
  have hdoc := (hinv.unresolved hcv).2.2
  refine ⟨hdoc, ?_⟩
  show (step (step (run (activate cfg d0) evs) Event.invoke) Event.rafFire).doc = d0
  obtain ⟨hidoc, hicv⟩ := invoke_doc_canvasRef (run (activate cfg d0) evs)
  rw [rafFire_doc_of_unresolved (step (run (activate cfg d0) evs) Event.invoke)
    (by rw [hicv]; exact hcv), hidoc, hdoc]

/-- C3 witness: with resolution still pending on an empty document, the
document stays untouched through an early trigger invocation and its
deferred callback. -/
theorem C3_setup_precedes_capture_witness :
    (run (activate cfgManual emptyDoc) [Event.effectRun]).doc = emptyDoc ∧
    (run (run (activate cfgManual emptyDoc) [Event.effectRun])
      [Event.invoke, Event.rafFire]).doc = emptyDoc :=
  C3_setup_precedes_capture cfgManual emptyDoc [Event.effectRun] (by decide)

/-- C4 counterexample: with a selector reference, resolution succeeds on an
element that is not a drawable-surface element — `document.querySelector`'s
result is accepted without any `instanceof HTMLCanvasElement` check. -/
theorem C4_counterexample :
    resolveRef cfgDiv divDoc = some 1 ∧ isCanvasElem divDoc 1 = false := by
  decide

/-- C4 (amended): for the indirect-handle and direct-element reference forms,
resolution succeeds only when the resulting object is confirmed to be a
canvas element; for the selector form the document is queried and the first
match is accepted with no canvas confirmation; on any resolution failure a
retry is scheduled after the fixed 100 ms delay and repeats indefinitely —
after any number of fruitless retry firings the retry timer is still armed
with the same delay. -/
theorem C4_resolution :
    (∀ (cfg : Config) (d : Doc) (cur : Option Nat) (cid : Nat),
        cfg.canvas = CanvasRef.ref cur → resolveRef cfg d = some cid →
        isCanvasElem d cid = true) ∧
    (∀ (cfg : Config) (d : Doc) (eid cid : Nat),
        cfg.canvas = CanvasRef.elem eid → resolveRef cfg d = some cid →
        isCanvasElem d cid = true) ∧
    (∀ (cfg : Config) (d : Doc) (s : String),
        cfg.canvas = CanvasRef.selector s → resolveRef cfg d = querySelector d s) ∧
    RESELECT_DELAY = 100 ∧
    (∀ st : HookState, resolveRef st.cfg st.doc = none →
        (runSetCanvas st).retryPending = some RESELECT_DELAY) ∧
    (∀ (n : Nat) (st : HookState),
        st.retryPending = some RESELECT_DELAY →
        resolveRef st.cfg st.doc = none →
        (run st (List.replicate n Event.retryFire)).retryPending
          = some RESELECT_DELAY) := by
  refine ⟨?_, ?_, ?_, rfl, ?_, ?_⟩
  · intro cfg d cur cid hc hres
    unfold resolveRef at hres
    rw [hc] at hres
    rcases cur with _ | id
    · exact Option.noConfusion hres
    · have hres2 : (if isCanvasElem d id = true then some id else none)
          = some cid := hres
      by_cases hic : isCanvasElem d id = true
      · rw [if_pos hic] at hres2
        rw [← Option.some.inj hres2]
        exact hic
      · rw [if_neg hic] at hres2
        exact Option.noConfusion hres2
  · intro cfg d eid cid hc hres
    unfold resolveRef at hres
    rw [hc] at hres
    have hres2 : (if isCanvasElem d eid = true then some eid else none)
        = some cid := hres
    by_cases hic : isCanvasElem d eid = true
    · rw [if_pos hic] at hres2
      rw [← Option.some.inj hres2]
      exact hic
    · rw [if_neg hic] at hres2
      exact Option.noConfusion hres2
  · intro cfg d s hc
    unfold resolveRef
    rw [hc]
  · intro st h
    unfold runSetCanvas
    rw [h]
  · exact fun n st h1 h2 => retry_replicate n st h1 h2

/-- C4 witness: on the empty document the selector fails, the retry timer is
armed with the 100 ms delay, and after three fruitless retries it is still
armed with the same delay. -/
theorem C4_resolution_witness :
    (runSetCanvas (activate cfgManual emptyDoc)).retryPending
      = some RESELECT_DELAY ∧
    (run (run (activate cfgManual emptyDoc) [Event.effectRun])
      (List.replicate 3 Event.retryFire)).retryPending = some RESELECT_DELAY := by
  have h := C4_resolution
  exact ⟨h.2.2.2.2.1 (activate cfgManual emptyDoc) (by decide),
    h.2.2.2.2.2 3 (run (activate cfgManual emptyDoc) [Event.effectRun])
      (by decide) (by decide)⟩

/-- C5 counterexample: in periodic mode a trigger invocation — calling the
activation's return value, which is null — throws a TypeError to the
activation's caller. -/
theorem C5_counterexample :
    (run (activate cfgPeriodic demoDoc) [Event.invoke]).callerErrors
      = ["TypeError: null is not a function"] := by
  decide

/-- C5 (amended): no error is ever surfaced to the activation's caller for
any configuration and any sequence of events, provided the caller does not
invoke the periodic-mode return value (which is null, not a function): in
manual mode every event sequence, and in periodic mode every sequence free
of invocations of the returned value, leaves the caller-visible error list
empty — every internal failure degrades to inaction. -/
theorem C5_no_caller_error (cfg : Config) (d0 : Doc) (evs : List Event)
    (h : intervalDisabled cfg.interval = true ∨ Event.invoke ∉ evs) :
    (run (activate cfg d0) evs).callerErrors = [] := by
  apply run_callerErrors_empty evs (activate cfg d0) rfl
  rcases h with h | h
  · exact Or.inl h
  · exact Or.inr h

/-- C5 witness: a full manual-mode session including trigger invocations and
teardown surfaces no error to the caller. -/
theorem C5_no_caller_error_witness :
    (run (activate cfgManual demoDoc)
      [Event.effectRun, Event.invoke, Event.rafFire, Event.deactivate]).callerErrors
      = [] :=
  C5_no_caller_error cfgManual demoDoc
    [Event.effectRun, Event.invoke, Event.rafFire, Event.deactivate] (Or.inl rfl)

/-- C6: a deferred animation-frame capture that runs when the canvas ref or
the img ref is unset (including after deactivation) is silently abandoned:
the document (hence the mirror image's content source) is unchanged, no
caller-visible or asynchronous error is recorded, no retry timeout or
interval timer is armed, and the callback queue only shrinks. -/
theorem C6_stale_abandoned (st : HookState)
    (h : st.canvasRef = none ∨ st.imgRef = none) :
    (step st Event.rafFire).doc = st.doc ∧
    (step st Event.rafFire).callerErrors = st.callerErrors ∧
    (step st Event.rafFire).asyncErrors = st.asyncErrors ∧
    (step st Event.rafFire).retryPending = st.retryPending ∧
    (step st Event.rafFire).intervalArmed = st.intervalArmed ∧
    (step st Event.rafFire).rafQueue ≤ st.rafQueue := by
  rcases hq : st.rafQueue with _ | k
  · rw [step_rafFire_zero st hq]
    exact ⟨rfl, rfl, rfl, rfl, rfl, Nat.le_of_eq hq⟩
  · rw [step_rafFire_succ st k hq,
      runRafCallback_unset { st with rafQueue := k } h]
    exact ⟨rfl, rfl, rfl, rfl, rfl, Nat.le_succ k⟩

/-- C6 witness: a deferred capture queued before resolution completed is
abandoned with no document change and no error. -/
theorem C6_stale_abandoned_witness :
    (step (run (activate cfgManual emptyDoc) [Event.effectRun, Event.invoke])
        Event.rafFire).doc
      = (run (activate cfgManual emptyDoc) [Event.effectRun, Event.invoke]).doc ∧
    (step (run (activate cfgManual emptyDoc) [Event.effectRun, Event.invoke])
        Event.rafFire).callerErrors
      = (run (activate cfgManual emptyDoc) [Event.effectRun, Event.invoke]).callerErrors := by
  have h := C6_stale_abandoned
    (run (activate cfgManual emptyDoc) [Event.effectRun, Event.invoke])
    (Or.inl (by decide))
  exact ⟨h.1, h.2.1⟩

/-- C7: every invocation of the capture trigger defers the read — the
invocation itself changes no document state and only enqueues one
animation-frame callback, and N invocations enqueue N independent callbacks
with no coalescing; an interval tick behaves the same way; when a queued
callback runs while both refs are set and the resolved element is a canvas,
it assigns to the mirror image's content source exactly the canvas's pixel
content encoded with the configured format and quality. -/
theorem C7_capture_semantics :
    (∀ (st : HookState) (n : Nat), intervalDisabled st.cfg.interval = true →
        (run st (List.replicate n Event.invoke)).doc = st.doc ∧
        (run st (List.replicate n Event.invoke)).rafQueue = st.rafQueue + n) ∧
    (∀ (st : HookState) (d : Nat), st.intervalArmed = some d →
        (step st Event.intervalTick).doc = st.doc ∧
        (step st Event.intervalTick).rafQueue = st.rafQueue + 1) ∧
    (∀ (st : HookState) (cid iid : Nat) (ce ie : Elem) (k : Nat),
        st.canvasRef = some cid → st.imgRef = some iid →
        Doc.find st.doc cid = some ce → ce.isCanvas = true →
        Doc.find st.doc iid = some ie → st.rafQueue = k + 1 →
        Doc.find (step st Event.rafFire).doc iid
          = some { ie with
              src := some (toDataURL st.cfg.fileType st.cfg.quality ce.content) }) := by
  refine ⟨?_, ?_, ?_⟩
  · intro st n h
    obtain ⟨h1, h2, _⟩ := run_invoke_replicate n st h
    exact ⟨h1, h2⟩
  · intro st d h
    rw [step_intervalTick_some st d h]
    exact ⟨rfl, rfl⟩
  · intro st cid iid ce ie k hc hi hfc hcv hfi hq
    rw [step_rafFire_succ st k hq,
      runRafCallback_capture { st with rafQueue := k } cid iid ce hc hi hfc hcv]
    show Doc.find (Doc.modify st.doc iid (fun e =>
        { e with src := some (toDataURL st.cfg.fileType st.cfg.quality ce.content) })) iid
      = _
    unfold Doc.find Doc.modify
    rw [lookupElem_modStore_self]
    have hfi2 : lookupElem st.doc.store iid = some ie := hfi
    rw [hfi2]
    rfl

/-- C7 witness: in the manual demo session, one trigger invocation followed
by the frame callback sets the mirror image's src to the encoded canvas
content; two rapid invocations enqueue two callbacks. -/
theorem C7_capture_semantics_witness :
    Doc.find (step (run (activate cfgManual demoDoc) [Event.effectRun, Event.invoke])
        Event.rafFire).doc 2
      = some { isCanvas := false, selectors := [], classes := [], attrs := [],
               style := IMG_STYLE,
               src := some (toDataURL "image/jpeg" (7/10 : Rat) "PIX"),
               content := "" } ∧
    (run (run (activate cfgManual demoDoc) [Event.effectRun])
        (List.replicate 2 Event.invoke)).rafQueue
      = (run (activate cfgManual demoDoc) [Event.effectRun]).rafQueue + 2 := by
  refine ⟨?_, ?_⟩
  · exact C7_capture_semantics.2.2
      (run (activate cfgManual demoDoc) [Event.effectRun, Event.invoke]) 1 2
      { isCanvas := true, selectors := ["#c"], classes := [], attrs := [],
        style := CANVAS_STYLE, src := none, content := "PIX" }
      { isCanvas := false, selectors := [], classes := [], attrs := [],
        style := IMG_STYLE, src := none, content := "" }
      0 (by decide) (by decide) (by decide) (by decide) (by decide) (by decide)
  · exact (C7_capture_semantics.1
      (run (activate cfgManual demoDoc) [Event.effectRun]) 2 (by decide)).2

/-- C8: per activation at most one mirror image is ever created; whenever a
mirror image exists it was created by this activation (its id is absent from
the initial document's heap), the canvas ref had resolved, and — when the
resolved element is attached — the mirror image sits immediately after it in
document order. -/
theorem C8_single_mirror (cfg : Config) (d0 : Doc) (evs : List Event) :
    (run (activate cfg d0) evs).imgCreated ≤ 1 ∧
    (∀ iid, (run (activate cfg d0) evs).imgRef = some iid →
      lookupElem d0.store iid = none ∧
      ∃ cid, (run (activate cfg d0) evs).canvasRef = some cid ∧
        (cid ∈ d0.order →
          adjacentIn (run (activate cfg d0) evs).doc.order cid iid = true)) := by
  have hinv := inv_run d0 evs (activate cfg d0) (inv_activate cfg d0)
  refine ⟨inv_created_le d0 _ hinv, ?_⟩
  intro iid h
  obtain ⟨_, h2, cid, h3, h4⟩ := hinv.img_resolved iid h
  exact ⟨h2, cid, h3, h4⟩

/-- C8 witness: in the manual demo session the single created mirror image
(id 2) is fresh and sits immediately after the canvas (id 1). -/
theorem C8_single_mirror_witness :
    (run (activate cfgManual demoDoc) [Event.effectRun]).imgCreated ≤ 1 ∧
    lookupElem demoDoc.store 2 = none ∧
    adjacentIn (run (activate cfgManual demoDoc) [Event.effectRun]).doc.order 1 2
      = true := by
  obtain ⟨hle, himg⟩ := C8_single_mirror cfgManual demoDoc [Event.effectRun]
  obtain ⟨hfresh, cid, hcid, hadj⟩ := himg 2 (by decide)
  have he : (run (activate cfgManual demoDoc) [Event.effectRun]).canvasRef
      = some 1 := by decide
  rw [he] at hcid
  have hc1 : cid = 1 := (Option.some.inj hcid).symm
  subst hc1
  exact ⟨hle, hfresh, hadj (by decide)⟩

/-- C9: if deactivation occurs while resolution is still pending (the canvas
ref is unset), then the pending reselect timeout is cancelled at teardown,
and in every state reachable afterwards no mirror image exists, none was
ever created, no retry is pending, and the document is exactly the initial
document — no DOM mutation ever occurs. -/
theorem C9_deactivate_before_resolution (cfg : Config) (d0 : Doc)
    (evs1 evs2 : List Event)
    (h : (run (activate cfg d0) evs1).canvasRef = none) :
    (step (run (activate cfg d0) evs1) Event.deactivate).retryPending = none ∧
    (run (step (run (activate cfg d0) evs1) Event.deactivate) evs2).imgRef = none ∧
    (run (step (run (activate cfg d0) evs1) Event.deactivate) evs2).imgCreated = 0 ∧
    (run (step (run (activate cfg d0) evs1) Event.deactivate) evs2).retryPending
      = none ∧
    (run (step (run (activate cfg d0) evs1) Event.deactivate) evs2).doc = d0 := by
  have hinv := inv_run d0 evs1 (activate cfg d0) (inv_activate cfg d0)
  obtain ⟨himg, hcr, hdoc⟩ := hinv.unresolved h
  have hdead : Dead (step (run (activate cfg d0) evs1) Event.deactivate) ∧
      (step (run (activate cfg d0) evs1) Event.deactivate).doc
        = (run (activate cfg d0) evs1).doc := by
    cases ht : (run (activate cfg d0) evs1).tornDown
    · rw [step_deactivate_live _ ht]
      exact ⟨⟨rfl, h, himg, rfl, rfl, hcr⟩, rfl⟩
    · rw [step_deactivate_torn _ ht]
      obtain ⟨hrp, hia⟩ := hinv.torn_cleared ht
      exact ⟨⟨ht, h, himg, hrp, hia, hcr⟩, rfl⟩
  obtain ⟨hd, hdocs⟩ := hdead
  obtain ⟨hd2, hdoc2⟩ := dead_run evs2 _ hd
  obtain ⟨_, _, hi2, hr2, _, hcr2⟩ := hd2
  refine ⟨hd.2.2.2.1, hi2, hcr2, hr2, ?_⟩
  rw [hdoc2, hdocs, hdoc]

/-- C9 witness: deactivating while the selector still fails on the empty
document, then letting stale timers, a trigger invocation and a frame
callback fire, never creates a mirror image or touches the document. -/
theorem C9_deactivate_before_resolution_witness :
    (step (run (activate cfgManual emptyDoc) [Event.effectRun])
        Event.deactivate).retryPending = none ∧
    (run (step (run (activate cfgManual emptyDoc) [Event.effectRun])
        Event.deactivate) [Event.retryFire, Event.invoke, Event.rafFire]).imgRef
      = none ∧
    (run (step (run (activate cfgManual emptyDoc) [Event.effectRun])
        Event.deactivate) [Event.retryFire, Event.invoke, Event.rafFire]).doc
      = emptyDoc := by
  have h := C9_deactivate_before_resolution cfgManual emptyDoc [Event.effectRun]
    [Event.retryFire, Event.invoke, Event.rafFire] (by decide)
  exact ⟨h.1, h.2.1, h.2.2.2.2⟩

/-- C10: during one-time setup the canvas element's entire inline style is
replaced by the fixed module-level constant after the configured attributes
are applied — whatever inline style the element had and whatever `style`
entry the attribute map carries are discarded wholesale — and the created
mirror image's inline style is likewise the fixed constant; the element
stored in the document after the mount effect is exactly the attribute-and-
class-updated element with the constant style. -/
theorem C10_style_wholesale (cfg : Config) (d0 : Doc) (cid : Nat) (e : Elem)
    (hres : resolveRef cfg d0 = some cid)
    (hfind : Doc.find d0 cid = some e) :
    (updateCanvasElem cfg e).style = CANVAS_STYLE ∧
    (createImg cfg.imgClassname).style = IMG_STYLE ∧
    Doc.find (step (activate cfg d0) Event.effectRun).doc cid
      = some (updateCanvasElem cfg e) := by
  refine ⟨rfl, rfl, ?_⟩
  have hdoc_eq : (step (activate cfg d0) Event.effectRun).doc
      = (runSetCanvas { activate cfg d0 with effectRan := true }).doc := by
    rcases hd : cfg.interval with _ | n
    · rw [step_effectRun_manual (activate cfg d0) rfl rfl hd]
    · rw [step_effectRun_periodic (activate cfg d0) n rfl rfl hd]
  rw [hdoc_eq]
  have hres1 : resolveRef ({ activate cfg d0 with effectRan := true } : HookState).cfg
      ({ activate cfg d0 with effectRan := true } : HookState).doc = some cid := hres
  unfold runSetCanvas
  rw [hres1]
  show lookupElem (modStore d0.store cid (updateCanvasElem cfg)
      ++ [(maxId d0 + 1, createImg cfg.imgClassname)]) cid
    = some (updateCanvasElem cfg e)
  apply lookupElem_append_some
  rw [lookupElem_modStore_self]
  have hf2 : lookupElem d0.store cid = some e := hfind
  rw [hf2]
  rfl

/-- C10 witness: with a caller-provided `style` attribute entry and a
pre-existing inline style on the canvas, both are discarded — the stored
canvas element's style is the module constant, and the mirror image's style
is the module constant. -/
theorem C10_style_wholesale_witness :
    (updateCanvasElem cfgStyled demoCanvas).style = CANVAS_STYLE ∧
    (createImg cfgStyled.imgClassname).style = IMG_STYLE ∧
    Doc.find (step (activate cfgStyled demoDoc) Event.effectRun).doc 1
      = some (updateCanvasElem cfgStyled demoCanvas) :=
  C10_style_wholesale cfgStyled demoDoc 1 demoCanvas (by decide) (by decide)

end UseCanvasImage
